import Mathlib

/-
  Verification of the cube-rotation engine of the Cube repository
  (src/src/app/page.tsx and its near-duplicate src/unnamed/part_000).

  The engine is shallowly embedded: JavaScript numbers are modelled as
  rationals, the 6-slot facelet color array as a structure with six string
  fields (indices 0..5 in the order +x,-x,+y,-y,+z,-z), and the commit step
  that rotateFace performs at animation completion as a pure function on the
  list of cubelets. Randomness in the scrambler is modelled as explicit
  streams of draws.
-/

namespace Cube

/-- The rotation axes. In the source the axis is a string with cases
x, y and z; the default case is unreachable from the closed Face type. -/
inductive Axis where
  | x
  | y
  | z
deriving DecidableEq, Repr

/-- The six faces of the cube, a closed enumeration in the source. -/
inductive Face where
  | front
  | back
  | left
  | right
  | top
  | bottom
deriving DecidableEq, Repr

/-- The fixed face colors, from the COLORS constant in the source. -/
def COLORS_front : String := "#ff0000"

def COLORS_back : String := "#ffa500"

def COLORS_left : String := "#00ff00"

def COLORS_right : String := "#0000ff"

def COLORS_top : String := "#ffff00"

def COLORS_bottom : String := "#ffffff"

/-- The 6-element facelet color array of a cubelet, in the fixed slot order
+x, -x, +y, -y, +z, -z (right, left, top, bottom, front, back). -/
structure Facelets where
  c0 : String
  c1 : String
  c2 : String
  c3 : String
  c4 : String
  c5 : String
deriving DecidableEq, Repr

/-- rotatePosition from the source: the discrete 90 degree rotation of a
coordinate triple about an axis, with the direction given by the clockwise
flag. JavaScript numbers are modelled as rationals. -/
def rotatePosition (pos : ℚ × ℚ × ℚ) (axis : Axis) (clockwise : Bool) : ℚ × ℚ × ℚ :=
  let x := pos.1
  let y := pos.2.1
  let z := pos.2.2
  match axis with
  | .x => if clockwise then (x, -z, y) else (x, z, -y)
  | .y => if clockwise then (z, y, -x) else (-z, y, x)
  | .z => if clockwise then (-y, x, z) else (y, -x, z)

/-- rotateColors from the source: the in-place 4-cycle of the facelet slots,
translated assignment by assignment (each let rebinding mirrors one array
assignment of the JavaScript code, which always reads a slot before it is
overwritten). -/
def rotateColors (colors : Facelets) (axis : Axis) (clockwise : Bool) : Facelets :=
  match axis with
  | .x =>
    if !clockwise then
      let temp := colors.c2
      let colors := { colors with c2 := colors.c4 }
      let colors := { colors with c4 := colors.c3 }
      let colors := { colors with c3 := colors.c5 }
      { colors with c5 := temp }
    else
      let temp := colors.c2
      let colors := { colors with c2 := colors.c5 }
      let colors := { colors with c5 := colors.c3 }
      let colors := { colors with c3 := colors.c4 }
      { colors with c4 := temp }
  | .y =>
    if !clockwise then
      let temp := colors.c0
      let colors := { colors with c0 := colors.c4 }
      let colors := { colors with c4 := colors.c1 }
      let colors := { colors with c1 := colors.c5 }
      { colors with c5 := temp }
    else
      let temp := colors.c0
      let colors := { colors with c0 := colors.c5 }
      let colors := { colors with c5 := colors.c1 }
      let colors := { colors with c1 := colors.c4 }
      { colors with c4 := temp }
  | .z =>
    if !clockwise then
      let temp := colors.c0
      let colors := { colors with c0 := colors.c2 }
      let colors := { colors with c2 := colors.c1 }
      let colors := { colors with c1 := colors.c3 }
      { colors with c3 := temp }
    else
      let temp := colors.c0
      let colors := { colors with c0 := colors.c3 }
      let colors := { colors with c3 := colors.c1 }
      let colors := { colors with c1 := colors.c2 }
      { colors with c2 := temp }

/-- One cubelet of the cube state: its current position, its facelet colors
and its transient rotation angles (the id string of the source is only used
as a React render key and carries no logic, so it is omitted). -/
structure CubePieceState where
  position : ℚ × ℚ × ℚ
  colors : Facelets
  rotation : ℚ × ℚ × ℚ
deriving DecidableEq, Repr

/-- JavaScript Math.round on a rational: the nearest integer, ties toward
positive infinity, that is the floor of q plus one half. It is computed on
the reduced fraction representation so that it evaluates by kernel
reduction; the lemma jsRound_eq_floor below proves it equal to the floor
form. -/
def jsRound (q : ℚ) : ℤ := (2 * q.num + (q.den : ℤ)).fdiv (2 * (q.den : ℤ))

/-- The per-face layer test of rotateFace (the switch that computes
shouldRotate for each piece), using Math.round on the relevant coordinate. -/
def shouldRotate (face : Face) (pos : ℚ × ℚ × ℚ) : Bool :=
  match face with
  | .front => jsRound pos.2.2 == 1
  | .back => jsRound pos.2.2 == -1
  | .top => jsRound pos.2.1 == 1
  | .bottom => jsRound pos.2.1 == -1
  | .right => jsRound pos.1 == 1
  | .left => jsRound pos.1 == -1

/-- getAxisForFace from the source. -/
def getAxisForFace (face : Face) : Axis :=
  match face with
  | .front | .back => .z
  | .top | .bottom => .y
  | .right | .left => .x

/-- The color direction used at commit time: for the top and bottom faces the
clockwise flag is inverted before being passed to rotateColors. -/
def colorClockwise (face : Face) (clockwise : Bool) : Bool :=
  if face == .top || face == .bottom then !clockwise else clockwise

/-- The commit that rotateFace applies to one selected piece when the
animation completes: rotatePosition on the position, rotateColors with the
possibly inverted direction on the colors, and the transient rotation reset
to zero. A piece not on the turning layer is untouched. -/
def commitPiece (face : Face) (clockwise : Bool) (piece : CubePieceState) : CubePieceState :=
  if shouldRotate face piece.position then
    { piece with
      position := rotatePosition piece.position (getAxisForFace face) clockwise
      colors := rotateColors piece.colors (getAxisForFace face) (colorClockwise face clockwise)
      rotation := (0, 0, 0) }
  else piece

/-- The committed effect of one full rotateFace call on the cube state: the
pieces selected by the layer test receive the discrete transforms, the rest
are unchanged. -/
def applyMove (state : List CubePieceState) (face : Face) (clockwise : Bool) :
    List CubePieceState :=
  state.map (commitPiece face clockwise)

/-- The rotatingPieces selection of rotateFace: the pieces of the state whose
layer test succeeds for the requested face. -/
def selectPieces (face : Face) (state : List CubePieceState) : List CubePieceState :=
  state.filter (fun piece => shouldRotate face piece.position)

/-- initializeCube from the source: the three nested loops over x, y, z in
-1, 0, 1, each producing a piece whose outward facelets carry the face colors
and whose other facelets carry the neutral color. -/
def initializeCube : List CubePieceState :=
  ([-1, 0, 1] : List ℚ).flatMap fun x =>
    ([-1, 0, 1] : List ℚ).flatMap fun y =>
      ([-1, 0, 1] : List ℚ).map fun z =>
        { position := (x, y, z)
          colors :=
            { c0 := if x == 1 then COLORS_right else "#333333"
              c1 := if x == -1 then COLORS_left else "#333333"
              c2 := if y == 1 then COLORS_top else "#333333"
              c3 := if y == -1 then COLORS_bottom else "#333333"
              c4 := if z == 1 then COLORS_front else "#333333"
              c5 := if z == -1 then COLORS_back else "#333333" }
          rotation := (0, 0, 0) }

/-- resetCube from the source: it discards the current state and installs a
fresh initializeCube state. -/
def resetCube (_state : List CubePieceState) : List CubePieceState :=
  initializeCube

/-- The engine state visible to rotateFace: the cube state and the two busy
flags. -/
structure EngineState where
  cubeState : List CubePieceState
  isAnimating : Bool
  isShuffling : Bool
deriving DecidableEq, Repr

/-- A rotateFace call summarised from the request to the completion of its
animation: a call made while a turn is already animating returns at once
with nothing changed (the entry guard of the source); otherwise the
committed quarter turn is applied and isAnimating has returned to false by
the time the animation completes. -/
def rotateFace (engine : EngineState) (face : Face) (clockwise : Bool) : EngineState :=
  if engine.isAnimating then engine
  else { engine with cubeState := applyMove engine.cubeState face clockwise }

/-- The faces array of shuffleCube, in source order. -/
def faces : List Face := [.front, .back, .top, .bottom, .right, .left]

/-- One move record generated by shuffleCube. -/
structure ShuffleMove where
  face : Face
  clockwise : Bool
deriving DecidableEq, Repr

/-- The do while loop of shuffleCube that draws a random face: each element
of the stream stands for one evaluation of Math.floor of Math.random times
the length of the faces array; a drawn face equal to the previous move is
rejected and the loop draws again. Returns none when the finite stream of
draws is exhausted. -/
def drawFace : List (Fin 6) → Option Face → Option (Face × List (Fin 6))
  | [], _ => none
  | d :: rest, lastFace =>
    let randomFace := faces.get ⟨d.val, d.isLt⟩
    if some randomFace == lastFace then drawFace rest lastFace
    else some (randomFace, rest)

/-- The move generation loop of shuffleCube: for each of the requested moves
it draws a face with drawFace (threading the lastFace variable), then draws
one direction from the direction stream, and appends the move. Returns none
when either stream runs out of draws. -/
def generateMoves : Nat → List (Fin 6) → List Bool → Option Face → Option (List ShuffleMove)
  | 0, _, _, _ => some []
  | n + 1, faceDraws, dirDraws, lastFace =>
    match drawFace faceDraws lastFace with
    | none => none
    | some (f, rest) =>
      match dirDraws with
      | [] => none
      | dir :: dirsRest =>
        match generateMoves n rest dirsRest (some f) with
        | none => none
        | some ms => some ({ face := f, clockwise := dir } :: ms)

/-- The hard coded number of shuffle moves of shuffleCube. -/
def shuffleMoves : Nat := 20

/-- The move list produced by one shuffleCube call, given the two streams of
random draws. -/
def shuffleCube (faceDraws : List (Fin 6)) (dirDraws : List Bool) :
    Option (List ShuffleMove) :=
  generateMoves shuffleMoves faceDraws dirDraws none

/-- A cube state at rest: every transient rotation is zero. -/
def atRest (state : List CubePieceState) : Prop :=
  ∀ piece ∈ state, piece.rotation = ((0 : ℚ), (0 : ℚ), (0 : ℚ))

instance (state : List CubePieceState) : Decidable (atRest state) :=
  List.decidableBAll _ state

/-- The coordinate of a position on a given axis (used to state the claims
about the layer test and the face to axis binding). -/
def axisCoord (axis : Axis) (pos : ℚ × ℚ × ℚ) : ℚ :=
  match axis with
  | .x => pos.1
  | .y => pos.2.1
  | .z => pos.2.2

/-- The layer value of a face on its axis, from the specification of the
Face binding: front, top and right select layer one, back, bottom and left
select layer minus one. -/
def faceLayer (face : Face) : ℤ :=
  match face with
  | .front => 1
  | .back => -1
  | .top => 1
  | .bottom => -1
  | .right => 1
  | .left => -1

/-- The list of the six facelet colors of a cubelet in slot order. -/
def Facelets.toList (colors : Facelets) : List String :=
  [colors.c0, colors.c1, colors.c2, colors.c3, colors.c4, colors.c5]

/-- The 27 coordinate triples of the cube, enumerated in the same nested
loop order as initializeCube. -/
def allCoords : List (ℚ × ℚ × ℚ) :=
  ([-1, 0, 1] : List ℚ).flatMap fun x =>
    ([-1, 0, 1] : List ℚ).flatMap fun y =>
      ([-1, 0, 1] : List ℚ).map fun z => (x, y, z)

/-- The solved coloring demanded of a cubelet: each outward facing facelet
carries the face color of its coordinate sign, every other facelet carries
the neutral color. -/
def solvedColorSpec (p : CubePieceState) : Prop :=
  ((p.position.1 = 1 ∧ p.colors.c0 = COLORS_right) ∨
    (p.position.1 ≠ 1 ∧ p.colors.c0 = "#333333")) ∧
  ((p.position.1 = -1 ∧ p.colors.c1 = COLORS_left) ∨
    (p.position.1 ≠ -1 ∧ p.colors.c1 = "#333333")) ∧
  ((p.position.2.1 = 1 ∧ p.colors.c2 = COLORS_top) ∨
    (p.position.2.1 ≠ 1 ∧ p.colors.c2 = "#333333")) ∧
  ((p.position.2.1 = -1 ∧ p.colors.c3 = COLORS_bottom) ∨
    (p.position.2.1 ≠ -1 ∧ p.colors.c3 = "#333333")) ∧
  ((p.position.2.2 = 1 ∧ p.colors.c4 = COLORS_front) ∨
    (p.position.2.2 ≠ 1 ∧ p.colors.c4 = "#333333")) ∧
  ((p.position.2.2 = -1 ∧ p.colors.c5 = COLORS_back) ∨
    (p.position.2.2 ≠ -1 ∧ p.colors.c5 = "#333333"))

instance (p : CubePieceState) : Decidable (solvedColorSpec p) := by
  unfold solvedColorSpec
  infer_instance

/-- A fixed piece on the top layer, used to instantiate theorems at a
concrete input. -/
def sampleTopPiece : CubePieceState :=
  { position := (0, 1, 0)
    colors := { c0 := "a", c1 := "b", c2 := "c", c3 := "d", c4 := "e", c5 := "f" }
    rotation := (0, 0, 0) }

/-- A fixed engine state whose animation flag is set, used to instantiate
theorems at a concrete input. -/
def sampleBusyEngine : EngineState :=
  { cubeState := initializeCube, isAnimating := true, isShuffling := false }

/-! ## Helper lemmas -/

theorem jsRound_eq_floor (q : ℚ) : jsRound q = ⌊q + 1 / 2⌋ := by
  have hcast : ((2 : ℤ) * (q.den : ℤ)) = ((2 * q.den : ℕ) : ℤ) := by push_cast; ring
  have hq : q + 1 / 2 = ((2 * q.num + (q.den : ℤ) : ℤ) : ℚ) / ((2 * q.den : ℕ) : ℚ) := by
    conv_lhs => rw [← Rat.num_div_den q]
    have hd : (q.den : ℚ) ≠ 0 := Nat.cast_ne_zero.mpr q.den_nz
    push_cast
    field_simp
    ring
  rw [jsRound, Int.fdiv_eq_ediv _ (by positivity), hq, Rat.floor_intCast_div_natCast, hcast]

theorem rotatePosition_four (p : ℚ × ℚ × ℚ) (axis : Axis) (c : Bool) :
    rotatePosition (rotatePosition (rotatePosition (rotatePosition p axis c) axis c) axis c)
      axis c = p := by
  rcases p with ⟨x, y, z⟩
  cases axis <;> cases c <;> simp [rotatePosition]

theorem rotateColors_four (colors : Facelets) (axis : Axis) (c : Bool) :
    rotateColors (rotateColors (rotateColors (rotateColors colors axis c) axis c) axis c)
      axis c = colors := by
  cases axis <;> cases c <;> rfl

theorem shouldRotate_rotatePosition (f : Face) (c : Bool) (p : ℚ × ℚ × ℚ) :
    shouldRotate f (rotatePosition p (getAxisForFace f) c) = shouldRotate f p := by
  rcases p with ⟨x, y, z⟩
  cases f <;> cases c <;> rfl

theorem commitPiece_four (f : Face) (c : Bool) (p : CubePieceState)
    (h : p.rotation = ((0 : ℚ), (0 : ℚ), (0 : ℚ))) :
    commitPiece f c (commitPiece f c (commitPiece f c (commitPiece f c p))) = p := by
  rcases p with ⟨pos, cols, rot⟩
  simp only at h
  by_cases hs : shouldRotate f pos
  · simp [commitPiece, hs, shouldRotate_rotatePosition, rotatePosition_four,
      rotateColors_four, h]
  · simp [commitPiece, hs]

theorem drawFace_ne (draws : List (Fin 6)) (lastFace : Option Face) (f : Face)
    (rest : List (Fin 6)) (h : drawFace draws lastFace = some (f, rest)) :
    some f ≠ lastFace := by
  induction draws with
  | nil => simp [drawFace] at h
  | cons d ds ih =>
    rw [drawFace] at h
    by_cases hd : (some (faces.get ⟨d.val, d.isLt⟩) == lastFace) = true
    · rw [if_pos hd] at h
      exact ih h
    · rw [if_neg hd] at h
      injection h with h2
      injection h2 with hf hr
      subst hf
      intro hc
      exact hd (beq_iff_eq.mpr hc)

theorem generateMoves_aux (n : Nat) :
    ∀ (faceDraws : List (Fin 6)) (dirDraws : List Bool) (lastFace : Option Face)
      (ms : List ShuffleMove),
      generateMoves n faceDraws dirDraws lastFace = some ms →
      ms.length = n ∧ List.Chain' (fun a b => a.face ≠ b.face) ms ∧
        (∀ m, ms.head? = some m → some m.face ≠ lastFace) := by
  induction n with
  | zero =>
    intro faceDraws dirDraws lastFace ms h
    rw [generateMoves] at h
    injection h with h2
    subst h2
    exact ⟨rfl, List.chain'_nil, by intro m hm; simp at hm⟩
  | succ n ih =>
    intro faceDraws dirDraws lastFace ms h
    rw [generateMoves] at h
    cases hdraw : drawFace faceDraws lastFace with
    | none => rw [hdraw] at h; exact absurd h (by simp)
    | some pr =>
      obtain ⟨f, rest⟩ := pr
      rw [hdraw] at h
      dsimp only at h
      cases dirDraws with
      | nil => exact absurd h (by simp)
      | cons dir dirsRest =>
        dsimp only at h
        cases hgen : generateMoves n rest dirsRest (some f) with
        | none => rw [hgen] at h; exact absurd h (by simp)
        | some ms2 =>
          rw [hgen] at h
          dsimp only at h
          injection h with h2
          subst h2
          obtain ⟨hlen, hchain, hhead⟩ := ih rest dirsRest (some f) ms2 hgen
          refine ⟨by simp [hlen], ?_, ?_⟩
          · rw [List.chain'_cons']
            constructor
            · intro b hb
              have hb2 := hhead b hb
              simp only [ne_eq, Option.some.injEq] at hb2
              exact fun hfb => hb2 hfb.symm
            · exact hchain
          · intro m hm
            simp only [List.head?_cons, Option.some.injEq] at hm
            subst hm
            exact drawFace_ne faceDraws lastFace f rest hdraw

/-! ## Claim theorems -/

/-- C1: for every face, every direction and every cube state at rest,
committing the same face turn four consecutive times (the discrete position
transform plus the paired facelet color transform applied at animation
completion) returns every cubelet, positions and facelet colors included,
exactly to its state before the first turn. -/
theorem applyMove_four_cycles (face : Face) (clockwise : Bool)
    (state : List CubePieceState) (h : atRest state) :
    applyMove (applyMove (applyMove (applyMove state face clockwise) face clockwise)
      face clockwise) face clockwise = state := by
  simp only [applyMove, List.map_map]
  induction state with
  | nil => rfl
  | cons p rest ih =>
    have hp : p.rotation = ((0 : ℚ), (0 : ℚ), (0 : ℚ)) := h p (List.mem_cons_self p rest)
    have hrest : atRest rest := fun q hq => h q (List.mem_cons_of_mem p hq)
    simp only [List.map_cons, Function.comp_apply, ih hrest, List.cons.injEq]
    exact ⟨commitPiece_four face clockwise p hp, trivial⟩

/-- Witness for C1: the solved cube is at rest, and four clockwise front
turns return it to itself. -/
theorem applyMove_four_cycles_witness :
    atRest initializeCube ∧
      applyMove (applyMove (applyMove (applyMove initializeCube .front true) .front true)
        .front true) .front true = initializeCube :=
  ⟨by decide, applyMove_four_cycles .front true initializeCube (by decide)⟩

/-- C2: on every axis, the position transform applied clockwise and then
counter clockwise restores the input triple, and the analogous round trip
holds for the facelet color transform on every 6-element color array. -/
theorem rotate_roundTrip :
    (∀ (p : ℚ × ℚ × ℚ) (axis : Axis),
      rotatePosition (rotatePosition p axis true) axis false = p) ∧
    (∀ (colors : Facelets) (axis : Axis),
      rotateColors (rotateColors colors axis true) axis false = colors) := by
  constructor
  · intro p axis
    rcases p with ⟨x, y, z⟩
    cases axis <;> simp [rotatePosition]
  · intro colors axis
    cases axis <;> rfl

/-- C3: the position transform computes exactly the stated coordinate
images for each axis and direction. -/
theorem rotatePosition_formulas :
    ∀ x y z : ℚ,
      rotatePosition (x, y, z) .x true = (x, -z, y) ∧
      rotatePosition (x, y, z) .x false = (x, z, -y) ∧
      rotatePosition (x, y, z) .y true = (z, y, -x) ∧
      rotatePosition (x, y, z) .y false = (-z, y, x) ∧
      rotatePosition (x, y, z) .z true = (-y, x, z) ∧
      rotatePosition (x, y, z) .z false = (y, -x, z) := by
  intro x y z
  exact ⟨rfl, rfl, rfl, rfl, rfl, rfl⟩

/-- C4: when a turn is committed, the colors of every selected piece are
rotated with the direction flag inverted for the top and bottom faces and
with the unchanged clockwise flag for the other four faces. -/
theorem commitPiece_colorDirection (face : Face) (clockwise : Bool)
    (piece : CubePieceState) (h : shouldRotate face piece.position = true) :
    ((face = .top ∨ face = .bottom) →
      (commitPiece face clockwise piece).colors =
        rotateColors piece.colors (getAxisForFace face) (!clockwise)) ∧
    (¬(face = .top ∨ face = .bottom) →
      (commitPiece face clockwise piece).colors =
        rotateColors piece.colors (getAxisForFace face) clockwise) := by
  cases face <;> simp [commitPiece, h, colorClockwise]

/-- Witness for C4: a piece on the top layer, turned clockwise, has its
colors rotated with the inverted direction flag. -/
theorem commitPiece_colorDirection_witness :
    shouldRotate .top sampleTopPiece.position = true ∧
      (((Face.top = .top ∨ Face.top = .bottom) →
        (commitPiece .top true sampleTopPiece).colors =
          rotateColors sampleTopPiece.colors (getAxisForFace .top) (!true)) ∧
      (¬(Face.top = .top ∨ Face.top = .bottom) →
        (commitPiece .top true sampleTopPiece).colors =
          rotateColors sampleTopPiece.colors (getAxisForFace .top) true)) :=
  ⟨by decide, commitPiece_colorDirection .top true sampleTopPiece (by decide)⟩

/-- C5: for every direction and every 6-element color array, rotateColors
cycles exactly the four facelet slots perpendicular to the rotation axis in
a single 4-cycle (spelled out slot by slot for both directions) and leaves
the two slots parallel to the axis, 0 and 1 for axis x, 2 and 3 for axis y,
4 and 5 for axis z, unchanged. -/
theorem rotateColors_fourCycle :
    ∀ colors : Facelets,
      (∀ dir, (rotateColors colors .x dir).c0 = colors.c0 ∧
        (rotateColors colors .x dir).c1 = colors.c1) ∧
      ((rotateColors colors .x true).c2 = colors.c5 ∧
        (rotateColors colors .x true).c5 = colors.c3 ∧
        (rotateColors colors .x true).c3 = colors.c4 ∧
        (rotateColors colors .x true).c4 = colors.c2) ∧
      ((rotateColors colors .x false).c2 = colors.c4 ∧
        (rotateColors colors .x false).c4 = colors.c3 ∧
        (rotateColors colors .x false).c3 = colors.c5 ∧
        (rotateColors colors .x false).c5 = colors.c2) ∧
      (∀ dir, (rotateColors colors .y dir).c2 = colors.c2 ∧
        (rotateColors colors .y dir).c3 = colors.c3) ∧
      ((rotateColors colors .y true).c0 = colors.c5 ∧
        (rotateColors colors .y true).c5 = colors.c1 ∧
        (rotateColors colors .y true).c1 = colors.c4 ∧
        (rotateColors colors .y true).c4 = colors.c0) ∧
      ((rotateColors colors .y false).c0 = colors.c4 ∧
        (rotateColors colors .y false).c4 = colors.c1 ∧
        (rotateColors colors .y false).c1 = colors.c5 ∧
        (rotateColors colors .y false).c5 = colors.c0) ∧
      (∀ dir, (rotateColors colors .z dir).c4 = colors.c4 ∧
        (rotateColors colors .z dir).c5 = colors.c5) ∧
      ((rotateColors colors .z true).c0 = colors.c3 ∧
        (rotateColors colors .z true).c3 = colors.c1 ∧
        (rotateColors colors .z true).c1 = colors.c2 ∧
        (rotateColors colors .z true).c2 = colors.c0) ∧
      ((rotateColors colors .z false).c0 = colors.c2 ∧
        (rotateColors colors .z false).c2 = colors.c1 ∧
        (rotateColors colors .z false).c1 = colors.c3 ∧
        (rotateColors colors .z false).c3 = colors.c0) := by
  intro colors
  refine ⟨fun dir => by cases dir <;> exact ⟨rfl, rfl⟩, ⟨rfl, rfl, rfl, rfl⟩,
    ⟨rfl, rfl, rfl, rfl⟩, fun dir => by cases dir <;> exact ⟨rfl, rfl⟩,
    ⟨rfl, rfl, rfl, rfl⟩, ⟨rfl, rfl, rfl, rfl⟩,
    fun dir => by cases dir <;> exact ⟨rfl, rfl⟩, ⟨rfl, rfl, rfl, rfl⟩,
    ⟨rfl, rfl, rfl, rfl⟩⟩

/-- C6: for every face and cube state, the pieces selected for the turn are
exactly those whose coordinate on the axis bound to the face, rounded by
Math.round, equals the layer value of the face; the second conjunct shows
the rounding on a non integer mid animation coordinate (0.9 is selected for
the front layer although it differs from 1). -/
theorem selectPieces_rounding :
    (∀ (face : Face) (state : List CubePieceState) (piece : CubePieceState),
      piece ∈ selectPieces face state ↔
        piece ∈ state ∧
          jsRound (axisCoord (getAxisForFace face) piece.position) = faceLayer face) ∧
    shouldRotate .front ((0 : ℚ), (0 : ℚ), mkRat 9 10) = true := by
  constructor
  · intro face state piece
    rw [selectPieces, List.mem_filter]
    cases face <;> simp [shouldRotate, axisCoord, getAxisForFace, faceLayer]
  · decide

/-- C7: resetCube yields, from any prior state, exactly the fresh
initializeCube state: one cubelet per coordinate triple of the 27 triples
with components in -1, 0, 1, each colored on its outward facelets by its
coordinate signs with every other facelet neutral, and with zero transient
rotation. -/
theorem resetCube_solved :
    ∀ state : List CubePieceState,
      resetCube state = initializeCube ∧
      initializeCube.map (fun p => p.position) = allCoords ∧
      allCoords.Nodup ∧
      (∀ p ∈ initializeCube,
        solvedColorSpec p ∧ p.rotation = ((0 : ℚ), (0 : ℚ), (0 : ℚ))) := by
  intro state
  exact ⟨rfl, by decide, by decide, by decide⟩

/-- C8: a rotateFace call made while a turn animation is in progress is a
silent no op: the engine state, the cube state included, is returned
completely unchanged, and no error is signalled (the function is total). -/
theorem rotateFace_whileAnimating_noop (engine : EngineState) (face : Face)
    (clockwise : Bool) (h : engine.isAnimating = true) :
    rotateFace engine face clockwise = engine := by
  simp [rotateFace, h]

/-- Witness for C8: a concrete busy engine is unchanged by a front turn
request. -/
theorem rotateFace_whileAnimating_noop_witness :
    sampleBusyEngine.isAnimating = true ∧
      rotateFace sampleBusyEngine .front true = sampleBusyEngine :=
  ⟨rfl, rotateFace_whileAnimating_noop sampleBusyEngine .front true rfl⟩

/-- C9: every successful run of the shuffle move generation produces exactly
the requested number of moves with no two consecutive moves on the same
face; a drawn face differing from the previous move is always accepted and
a drawn face equal to the previous move is always redrawn (the only redraw
condition); and the implementation requests 20 moves. -/
theorem shuffleCube_generation :
    (∀ (n : Nat) (faceDraws : List (Fin 6)) (dirDraws : List Bool)
        (ms : List ShuffleMove),
      generateMoves n faceDraws dirDraws none = some ms →
        ms.length = n ∧ List.Chain' (fun a b => a.face ≠ b.face) ms) ∧
    (∀ (d : Fin 6) (rest : List (Fin 6)) (lastFace : Face),
      faces.get ⟨d.val, d.isLt⟩ ≠ lastFace →
        drawFace (d :: rest) (some lastFace) =
          some (faces.get ⟨d.val, d.isLt⟩, rest)) ∧
    (∀ (d : Fin 6) (rest : List (Fin 6)) (lastFace : Face),
      faces.get ⟨d.val, d.isLt⟩ = lastFace →
        drawFace (d :: rest) (some lastFace) = drawFace rest (some lastFace)) ∧
    shuffleMoves = 20 := by
  refine ⟨?_, ?_, ?_, rfl⟩
  · intro n faceDraws dirDraws ms h
    obtain ⟨hlen, hchain, _⟩ := generateMoves_aux n faceDraws dirDraws none ms h
    exact ⟨hlen, hchain⟩
  · intro d rest lastFace hne
    rw [drawFace, if_neg]
    simp only [beq_iff_eq, Option.some.injEq]
    exact hne
  · intro d rest lastFace heq
    rw [drawFace, if_pos]
    simp only [beq_iff_eq, Option.some.injEq]
    exact heq

/-- Witness for C9: a run of two moves in which the second draw repeats the
front face and is redrawn, yielding front then back. -/
theorem shuffleCube_generation_witness :
    generateMoves 2 [0, 0, 1] [true, false] none =
        some [⟨.front, true⟩, ⟨.back, false⟩] ∧
      ([⟨.front, true⟩, ⟨.back, false⟩] : List ShuffleMove).length = 2 ∧
      List.Chain' (fun a b => a.face ≠ b.face)
        ([⟨.front, true⟩, ⟨.back, false⟩] : List ShuffleMove) :=
  ⟨by decide, shuffleCube_generation.1 2 [0, 0, 1] [true, false] _ (by decide)⟩

/-- C10: rotateColors only rearranges the six facelet colors: the list of
colors of the output is a permutation of the list of colors of the input,
for every color array, axis and direction, so no sticker color is ever
duplicated or lost by a committed turn. -/
theorem rotateColors_preservesMultiset (colors : Facelets) (axis : Axis) (c : Bool) :
    (rotateColors colors axis c).toList.Perm colors.toList := by
  cases axis <;> cases c <;>
    · simp only [rotateColors, Bool.not_false, Bool.not_true, if_true, if_false,
        Facelets.toList]
      rw [← Multiset.coe_eq_coe]
      simp only [← Multiset.cons_coe, Multiset.coe_nil, ← Multiset.singleton_add]
      abel_nf

end Cube
